import Mathlib

/-!
Verification development for the vuokraovi rental-listing bot
(fetch / parse / reconcile pipeline).

The Go source is shallowly embedded:

* Go maps (`map[K]V`) are modelled as association lists
  (`List (K × V)`) with first-match lookup and update-or-append
  insertion, matching Go's overwrite semantics; `map[string]bool`
  "seen" sets are modelled as duplicate-free `List String`.
* `time.Time` values are modelled as `Nat` (0 is the zero time);
  `time.Now()` is passed in as an explicit `now` argument.
* `int64` chat ids and `int` page counters are modelled as `Int`.
* File I/O of `saveState` / `LoadState` is split into its pure part:
  `saveStateSnap` produces the normalized `Snapshot` that would be
  serialized, and `LoadState` consumes an `Option Snapshot`
  (`none` = the state file does not exist).  The outcome of the
  physical write is an explicit `persistOk : Bool` argument; the
  mutating operations call `saveState` exactly where the Go code does
  and discard (or return) its result exactly as the Go code does.
* The HTTP transport of the fetcher is an oracle
  `env : url → method → body → Except Unit (offers × nextPageURL)`;
  an `Except.error` result stands for any transport failure
  (connection error, non-200 status, redirect limit).  The unbounded
  Go `for` loop is given explicit fuel; every claim is stated either
  about one unfolding of the loop or with concrete sufficient fuel.
* goquery selections in the parser are modelled by a `Container`
  record holding exactly the document features the extraction rules
  read (image alt attributes, price text, `.col-2` list items,
  availability items, link href).
-/

/-- RentalOffer mirrors the Go struct `RentalOffer` (state package). -/
structure RentalOffer where
  Title : String
  Address : String
  Price : String
  Size : String
  Rooms : String
  Available : String
  Link : String
deriving DecidableEq, Repr

/-- UserState mirrors the Go struct `UserState`.  `SeenOffers` is the key
set of the Go `map[string]bool` (the code only ever stores `true`). -/
structure UserState where
  ChatID : Int
  Username : String
  FirstName : String
  LastName : String
  LastNotified : Nat
  SeenOffers : List String
  Notifications : Bool
deriving DecidableEq, Repr

/-- BotState mirrors the Go struct `BotState` (the mutex and the save
directory are not part of the logical state). -/
structure BotState where
  Users : List (Int × UserState)
  KnownOffers : List (String × RentalOffer)
  LastUpdated : Nat
deriving DecidableEq, Repr

/-- Snapshot is the JSON document written by `saveState` and read by
`LoadState`.  A user decoded from JSON is a pointer in Go and may be
nil, hence `Option UserState`. -/
structure Snapshot where
  users : List (Int × Option UserState)
  knownOffers : List (String × RentalOffer)
  lastUpdated : Nat
deriving DecidableEq, Repr

/-- TgUser models the fields of `tgbotapi.User` that `AddUser` reads. -/
structure TgUser where
  UserName : String
  FirstName : String
  LastName : String
deriving DecidableEq, Repr

/-- First-match lookup in an association list (Go map read). -/
def lookupA {κ α : Type} [DecidableEq κ] : List (κ × α) → κ → Option α
  | [], _ => none
  | kv :: rest, k => if kv.1 = k then some kv.2 else lookupA rest k

/-- Update-or-append insertion in an association list (Go map write). -/
def insertA {κ α : Type} [DecidableEq κ] : List (κ × α) → κ → α → List (κ × α)
  | [], k, v => [(k, v)]
  | kv :: rest, k, v => if kv.1 = k then (k, v) :: rest else kv :: insertA rest k v

/-- Key-set insertion for the `map[string]bool` seen sets. -/
def insertS (l : List String) (s : String) : List String :=
  if s ∈ l then l else l ++ [s]

/-- cleanURL removes query parameters from a URL: everything from the
first character `?` on is dropped (`url[:strings.Index(url, "?")]`). -/
def cleanURL (url : String) : String :=
  String.mk (url.data.takeWhile (fun c => c ≠ '?'))

/-- Normalization of the known-offers map performed identically in
`saveState` (building `stateCopy.KnownOffers`) and in `LoadState`
(building `uniqueOffers`): every key is re-canonicalized, and entries
with an empty canonical key or an empty `Link` field are dropped. -/
def normOffers (l : List (String × RentalOffer)) : List (String × RentalOffer) :=
  l.foldl
    (fun acc kv =>
      let cleanLink := cleanURL kv.1
      if cleanLink ≠ "" && kv.2.Link ≠ "" then insertA acc cleanLink kv.2 else acc)
    []

/-- Normalization of one user's seen set performed identically in
`saveState` and `LoadState` (building `validSeenOffers`): each entry is
canonicalized and kept only when it is a key of the (already
normalized) known-offers map. -/
def normSeen (known : List (String × RentalOffer)) (seen : List String) : List String :=
  seen.foldl
    (fun acc link =>
      let cleanLink := cleanURL link
      if (lookupA known cleanLink).isSome then insertS acc cleanLink else acc)
    []

/-- Pure content of `saveState`: the normalized `stateCopy` that is
marshalled to `bot_state.json` (users are written through pointers,
hence wrapped in `some`). -/
def saveStateSnap (bs : BotState) : Snapshot :=
  let knownOffers := normOffers bs.KnownOffers
  let users := bs.Users.foldl
    (fun acc ku => insertA acc ku.1 { ku.2 with SeenOffers := normSeen knownOffers ku.2.SeenOffers })
    []
  ⟨users.map (fun ku => (ku.1, some ku.2)), knownOffers, bs.LastUpdated⟩

/-- saveState: builds the normalized snapshot and writes it; the write
can fail (directory creation or file write), modelled by `persistOk`.
The Go method returns this `error`; most callers discard it. -/
def saveState (bs : BotState) (persistOk : Bool) : Except String Snapshot :=
  if persistOk then .ok (saveStateSnap bs) else .error "failed to write bot state file"

/-- LoadState: `none` models an absent `bot_state.json` (not an error —
the state initializes to empty); `some st` models a successfully
unmarshalled file.  Offers are normalized into `uniqueOffers`, then
each non-nil user's seen set is pruned against them; a zero persisted
`last_updated` is replaced by `now` (`time.Now()`). -/
def LoadState (file : Option Snapshot) (now : Nat) : BotState :=
  match file with
  | none => ⟨[], [], now⟩
  | some st =>
    let uniqueOffers := normOffers st.knownOffers
    let users := st.users.foldl
      (fun acc ku =>
        match ku.2 with
        | none => acc
        | some u => insertA acc ku.1 { u with SeenOffers := normSeen uniqueOffers u.SeenOffers })
      []
    ⟨users, uniqueOffers, if st.lastUpdated ≠ 0 then st.lastUpdated else now⟩

/-- Loop body of `UpdateOffers`: canonicalize the offer's link; skip it
when the canonical link is empty; otherwise insert the canonicalized
copy iff the canonical link is not yet a key, appending it to the
returned new-offers list. -/
def updateOffersStep (acc : List (String × RentalOffer) × List RentalOffer)
    (offer : RentalOffer) : List (String × RentalOffer) × List RentalOffer :=
  let cleanLink := cleanURL offer.Link
  if cleanLink ≠ "" then
    let offerCopy := { offer with Link := cleanLink }
    if (lookupA acc.1 cleanLink).isSome then acc
    else (insertA acc.1 cleanLink offerCopy, acc.2 ++ [offerCopy])
  else acc

/-- UpdateOffers (the Store's RegisterAndDiff): registers the new
offers, stamps `LastUpdated`, calls `saveState` and discards its
error, and returns the newly added offers. -/
def UpdateOffers (bs : BotState) (offers : List RentalOffer) (now : Nat)
    (persistOk : Bool) : BotState × List RentalOffer :=
  let res := offers.foldl updateOffersStep (bs.KnownOffers, [])
  let bs' : BotState := { bs with KnownOffers := res.1, LastUpdated := now }
  let _ := saveState bs' persistOk
  (bs', res.2)

/-- MarkOfferAsSeen (the Store's MarkSeen): adds the canonicalized link
to the user's seen set when the user exists (no-op otherwise), then
calls `saveState` and discards its error. -/
def MarkOfferAsSeen (bs : BotState) (chatID : Int) (offerLink : String)
    (persistOk : Bool) : BotState :=
  let bs' :=
    match lookupA bs.Users chatID with
    | some user =>
      let user' := { user with SeenOffers := insertS user.SeenOffers (cleanURL offerLink) }
      { bs with Users := insertA bs.Users chatID user' }
    | none => bs
  let _ := saveState bs' persistOk
  bs'

/-- AddUser: creates the user with notifications on and an empty seen
set when absent, otherwise refreshes only the display-name fields;
saves (error discarded) and returns the stored user. -/
def AddUser (bs : BotState) (user : TgUser) (chatID : Int) (persistOk : Bool) :
    BotState × UserState :=
  let stored : UserState :=
    match lookupA bs.Users chatID with
    | none =>
      { ChatID := chatID, Username := user.UserName, FirstName := user.FirstName,
        LastName := user.LastName, LastNotified := 0, SeenOffers := [],
        Notifications := true }
    | some u =>
      { u with Username := user.UserName, FirstName := user.FirstName, LastName := user.LastName }
  let bs' : BotState := { bs with Users := insertA bs.Users chatID stored }
  let _ := saveState bs' persistOk
  (bs', stored)

/-- ResetUserState: clears the seen set and the last-notified time of
an existing user (saving afterward); unknown users are a no-op with no
save. -/
def ResetUserState (bs : BotState) (chatID : Int) (persistOk : Bool) : BotState :=
  match lookupA bs.Users chatID with
  | some user =>
    let user' := { user with SeenOffers := ([] : List String), LastNotified := 0 }
    let bs' : BotState := { bs with Users := insertA bs.Users chatID user' }
    let _ := saveState bs' persistOk
    bs'
  | none => bs

/-- SetUserNotifications: toggles the flag when the user exists
(returning true, saving), otherwise returns false. -/
def SetUserNotifications (bs : BotState) (chatID : Int) (enabled : Bool)
    (persistOk : Bool) : BotState × Bool :=
  match lookupA bs.Users chatID with
  | some user =>
    let user' := { user with Notifications := enabled }
    let bs' : BotState := { bs with Users := insertA bs.Users chatID user' }
    let _ := saveState bs' persistOk
    (bs', true)
  | none => (bs, false)

/-- UpdateUserLastNotified: stamps the user's last-notified time when
the user exists; `saveState` is called either way (error discarded). -/
def UpdateUserLastNotified (bs : BotState) (chatID : Int) (t : Nat)
    (persistOk : Bool) : BotState :=
  let bs' :=
    match lookupA bs.Users chatID with
    | some user =>
      let user' := { user with LastNotified := t }
      { bs with Users := insertA bs.Users chatID user' }
    | none => bs
  let _ := saveState bs' persistOk
  bs'

/-- CleanupInactiveUsers: drops every user whose last-notified time is
before `now` minus thirty days (time modelled in days as `Nat`), then
returns `saveState`'s result (the one mutator that propagates it). -/
def CleanupInactiveUsers (bs : BotState) (now : Nat) (persistOk : Bool) :
    BotState × Except String Snapshot :=
  let bs' : BotState :=
    { bs with Users := bs.Users.filter (fun ku => ¬ ku.2.LastNotified < now - 30) }
  (bs', saveState bs' persistOk)

/-- Observation helper: the seen set of one user of a state (empty when
the user does not exist). -/
def seenOf (bs : BotState) (chatID : Int) : List String :=
  match lookupA bs.Users chatID with
  | some u => u.SeenOffers
  | none => []

/-- Reference definition transcribed from the specification's wording
of `RegisterAndDiff`: for each input listing in order, canonicalize its
link; the listing is new iff its canonicalized link is not already a
key; new listings are inserted and returned in input order. -/
def specNewListings (known : List (String × RentalOffer)) :
    List RentalOffer → List RentalOffer
  | [] => []
  | offer :: rest =>
    let c := cleanURL offer.Link
    if (lookupA known c).isSome then specNewListings known rest
    else
      { offer with Link := c } :: specNewListings (insertA known c { offer with Link := c }) rest

/-- SeenInvariant is the spec's seen-links invariant: every entry of
every user's seen set is a key of the global known-offers map. -/
def SeenInvariant (bs : BotState) : Prop :=
  ∀ ku ∈ bs.Users, ∀ link ∈ ku.2.SeenOffers, (lookupA bs.KnownOffers link).isSome

/-- ValidState describes a registry containing only valid entries:
every known offer is keyed by its non-empty canonical link and has a
non-empty `Link` field, keys are unique (map representation), and every
user's seen entry is canonical and resolves to a known offer. -/
def ValidState (bs : BotState) : Prop :=
  (bs.KnownOffers.map Prod.fst).Nodup ∧
  (∀ kv ∈ bs.KnownOffers, cleanURL kv.1 = kv.1 ∧ kv.1 ≠ "" ∧ kv.2.Link ≠ "") ∧
  (bs.Users.map Prod.fst).Nodup ∧
  (∀ ku ∈ bs.Users, ku.2.SeenOffers.Nodup ∧
    ∀ link ∈ ku.2.SeenOffers, cleanURL link = link ∧ (lookupA bs.KnownOffers link).isSome)

/-- Reachable closes the initial states (`NewBotState` runs `LoadState`,
with `none` for an absent state file) under every mutating operation of
the state package, with arbitrary arguments and persistence outcomes. -/
inductive Reachable : BotState → Prop
  | load (file : Option Snapshot) (now : Nat) : Reachable (LoadState file now)
  | addUser {bs : BotState} (u : TgUser) (chatID : Int) (p : Bool) :
      Reachable bs → Reachable (AddUser bs u chatID p).1
  | updateOffers {bs : BotState} (offers : List RentalOffer) (now : Nat) (p : Bool) :
      Reachable bs → Reachable (UpdateOffers bs offers now p).1
  | markSeen {bs : BotState} (chatID : Int) (link : String) (p : Bool) :
      Reachable bs → Reachable (MarkOfferAsSeen bs chatID link p)
  | resetUser {bs : BotState} (chatID : Int) (p : Bool) :
      Reachable bs → Reachable (ResetUserState bs chatID p)
  | setNotifications {bs : BotState} (chatID : Int) (e : Bool) (p : Bool) :
      Reachable bs → Reachable (SetUserNotifications bs chatID e p).1
  | updateLastNotified {bs : BotState} (chatID : Int) (t : Nat) (p : Bool) :
      Reachable bs → Reachable (UpdateUserLastNotified bs chatID t p)
  | cleanupInactive {bs : BotState} (now : Nat) (p : Bool) :
      Reachable bs → Reachable (CleanupInactiveUsers bs now p).1

/-- FetchEnv is the transport-plus-parse oracle standing for
`fetchAndParse`: given target URL, method and form body it returns the
page's extracted offers and the href of the document's `rel="next"`
link (already resolved against the base URL; `""` when absent), or a
transport failure (connection error, non-200 status, redirect limit
exceeded — all collapsed into `Except.error`). -/
def FetchEnv : Type := String → String → String → Except Unit (List RentalOffer × String)

/-- initialURL is the fixed search endpoint of the initial POST. -/
def initialURL : String := "https://www.vuokraovi.com/haku/vuokra-asunnot?locale=fi"

/-- Pagination loop of `FetchRentalOffers`.  The Go `for` loop is given
explicit fuel (it has no intrinsic bound when `maxPages ≤ 0`); each
unfolding performs exactly one iteration of the source loop: stop when
there is no next-page URL, stop when `maxPages > 0` and the next page
number exceeds `maxPages`, stop (keeping accumulated offers) when the
page fetch fails, otherwise append the page's offers and continue. -/
def fetchLoop (env : FetchEnv) (maxPages : Int) :
    Nat → Int → String → List RentalOffer → List RentalOffer
  | 0, _, _, allOffers => allOffers
  | fuel + 1, pageNum, nextPageURL, allOffers =>
    if nextPageURL = "" then allOffers
    else if maxPages > 0 ∧ pageNum > maxPages then allOffers
    else
      match env nextPageURL "GET" "" with
      | .error _ => allOffers
      | .ok (pageOffers, newNextPageURL) =>
        fetchLoop env maxPages fuel (pageNum + 1) newNextPageURL (allOffers ++ pageOffers)

/-- FetchRentalOffers: POST the form data to the initial URL (a failure
there is returned as an error), then follow pagination links starting
from page number 2. -/
def FetchRentalOffers (env : FetchEnv) (formData : String) (maxPages : Int)
    (fuel : Nat) : Except Unit (List RentalOffer) :=
  match env initialURL "POST" formData with
  | .error _ => .error ()
  | .ok (offers, nextPageURL) => .ok (fetchLoop env maxPages fuel 2 nextPageURL offers)

/-- sampleOffer builds a distinguishable offer for concrete scenarios. -/
def sampleOffer (s : String) : RentalOffer := ⟨s, "", "", "", "", "", s⟩

/-- env5 is a synthetic five-page response chain; every page up to the
fifth advertises a `rel="next"` link, the fifth does not. -/
def env5 : FetchEnv := fun url _ _ =>
  if url = initialURL then .ok ([sampleOffer "o1"], "https://www.vuokraovi.com/p2")
  else if url = "https://www.vuokraovi.com/p2" then
    .ok ([sampleOffer "o2"], "https://www.vuokraovi.com/p3")
  else if url = "https://www.vuokraovi.com/p3" then
    .ok ([sampleOffer "o3"], "https://www.vuokraovi.com/p4")
  else if url = "https://www.vuokraovi.com/p4" then
    .ok ([sampleOffer "o4"], "https://www.vuokraovi.com/p5")
  else if url = "https://www.vuokraovi.com/p5" then .ok ([sampleOffer "o5"], "")
  else .error ()

/-- envFail is a synthetic chain whose first two pages succeed and
whose third page fails with a transport error. -/
def envFail : FetchEnv := fun url _ _ =>
  if url = initialURL then .ok ([sampleOffer "o1"], "https://www.vuokraovi.com/p2")
  else if url = "https://www.vuokraovi.com/p2" then
    .ok ([sampleOffer "o2"], "https://www.vuokraovi.com/p3")
  else .error ()

/-- listContainsSub pat l is `strings.Contains` on character lists
(UTF-8 byte search and character search agree for full-character
patterns). -/
def listContainsSub (pat : List Char) : List Char → Bool
  | [] => pat.isPrefixOf []
  | c :: rest => pat.isPrefixOf (c :: rest) || listContainsSub pat rest

/-- containsSub s pat models `strings.Contains(s, pat)`. -/
def containsSub (s pat : String) : Bool := listContainsSub pat.data s.data

/-- splitChars sep models `strings.Split` with a one-character
separator, on character lists. -/
def splitChars (sep : Char) : List Char → List (List Char)
  | [] => [[]]
  | c :: rest =>
    match splitChars sep rest with
    | [] => [[]]
    | cur :: others => if c = sep then [] :: cur :: others else (c :: cur) :: others

/-- splitOnChar sep s models `strings.Split(s, sep)` for a
one-character separator. -/
def splitOnChar (sep : Char) (s : String) : List String :=
  (splitChars sep s.data).map String.mk

/-- breakOnSub pat l splits l at the first occurrence of pat,
returning the part before it and the part after it. -/
def breakOnSub (pat : List Char) : List Char → Option (List Char × List Char)
  | [] => if pat.isPrefixOf ([] : List Char) then some ([], []) else none
  | c :: rest =>
    if pat.isPrefixOf (c :: rest) then some ([], (c :: rest).drop pat.length)
    else
      match breakOnSub pat rest with
      | some (pre, post) => some (c :: pre, post)
      | none => none

/-- trimAscii models `strings.TrimSpace` (whitespace at both ends). -/
def trimAscii (s : String) : String :=
  String.mk (((s.data.dropWhile Char.isWhitespace).reverse.dropWhile
    Char.isWhitespace).reverse)

/-- lowerAscii models `strings.ToLower` on ASCII text. -/
def lowerAscii (s : String) : String := String.mk (s.data.map Char.toLower)

/-- utf8Len models Go's `len` on a string: its UTF-8 byte count. -/
def utf8Len (s : String) : Nat := s.data.foldl (fun n c => n + c.utf8Size) 0

/-- joinAll concatenates a list of strings (goquery `.Text()` over a
multi-element selection concatenates the texts). -/
def joinAll (l : List String) : String :=
  String.mk (l.foldl (fun acc s => acc ++ s.data) [])

/-- hasPrefixS s pre models `strings.HasPrefix(s, pre)`. -/
def hasPrefixS (s pre : String) : Bool := pre.data.isPrefixOf s.data

/-- isSeparatorASCII models the word-separator test of `strings.Title`
for ASCII input: letters, digits and underscore are not separators,
everything else is. -/
def isSeparatorASCII (c : Char) : Bool := !(c.isAlphanum || c == '_')

/-- titleAux maps each character following a separator to upper case,
tracking the previous (unmapped) character, as `strings.Title` does. -/
def titleAux : List Char → Char → List Char
  | [], _ => []
  | c :: rest, prev => (if isSeparatorASCII prev then c.toUpper else c) :: titleAux rest c

/-- asciiTitle models `strings.Title` on ASCII text (the source's
title-casing is locale-naive by design; the spec preserves this). -/
def asciiTitle (s : String) : String := String.mk (titleAux s.data ' ')

/-- trimSlashes models `strings.Trim(s, "/")`. -/
def trimSlashes (s : String) : String :=
  String.mk (((s.data.dropWhile (fun c => c == '/')).reverse.dropWhile
    (fun c => c == '/')).reverse)

/-- urlPath models `url.Parse(href).Path` for well-formed absolute
http(s) URLs and path-only references: an optional `scheme://host`
prefix is dropped, then any query or fragment suffix. -/
def urlPath (href : String) : String :=
  let afterHost :=
    match breakOnSub ("://".data) href.data with
    | some (_, rest) => rest.dropWhile (fun c => c != '/')
    | none => href.data
  String.mk (afterHost.takeWhile (fun c => (c != '?') && (c != '#')))

/-- Container models one `.list-item-container` goquery selection; each
field holds exactly what the corresponding extraction rule reads from
the document. -/
structure Container where
  imgAlts : List (Option String)
  priceText : Option String
  col2Items : Option (List String)
  availItems : List String
  linkHref : Option String
deriving DecidableEq, Repr

/-- extractAddressAndTitle: for each `.col-1 img`, when an `alt`
attribute exists, is non-empty, is longer than 5 bytes and does not
contain "icon" case-insensitively, the alt text becomes the address
and its first comma-delimited segment (trimmed) becomes the title. -/
def extractAddressAndTitle (c : Container) (offer : RentalOffer) : RentalOffer :=
  c.imgAlts.foldl
    (fun offer alt? =>
      match alt? with
      | some alt =>
        if alt ≠ "" then
          if utf8Len alt > 5 && !(containsSub (lowerAscii alt) "icon") then
            let offer := { offer with Address := alt }
            let parts := splitOnChar ',' alt
            if parts.length > 0 then { offer with Title := trimAscii (parts.getD 0 "") }
            else offer
          else offer
        else offer
      | none => offer)
    offer

/-- extractPrice: the trimmed text of `span.price` when present. -/
def extractPrice (c : Container) (offer : RentalOffer) : RentalOffer :=
  match c.priceText with
  | some t => { offer with Price := trimAscii t }
  | none => offer

/-- extractSizeAndRooms: the first `.col-2 .list-unstyled` list item is
a "housing type, size" pair — the part after the first comma (trimmed)
becomes the size, but only when the text contains `m²`; a second list
item is taken (trimmed) as the rooms description. -/
def extractSizeAndRooms (c : Container) (offer : RentalOffer) : RentalOffer :=
  match c.col2Items with
  | some items =>
    let sizeText := trimAscii (items.getD 0 "")
    let offer :=
      if containsSub sizeText "m²" then
        let parts := splitOnChar ',' sizeText
        if parts.length > 1 then { offer with Size := trimAscii (parts.getD 1 "") } else offer
      else offer
    if items.length > 1 then { offer with Rooms := trimAscii (items.getD 1 "") } else offer
  | none => offer

/-- extractAvailability: the trimmed concatenated text of
`.showing-lease-container li` when any such item exists. -/
def extractAvailability (c : Container) (offer : RentalOffer) : RentalOffer :=
  if c.availItems.length > 0 then
    { offer with Available := trimAscii (joinAll c.availItems) }
  else offer

/-- extractAddressFromLink: the listing URL's path is split on `/`
after trimming; with at least four segments, the second is taken as
city and the third as district (both title-cased), the title is set to
the district only when no title is set yet, and the address becomes
"district, city". -/
def extractAddressFromLink (offer : RentalOffer) (href : String) : RentalOffer :=
  let pathParts := splitOnChar '/' (trimSlashes (urlPath href))
  if pathParts.length ≥ 4 then
    let cityIndex := 1
    let districtIndex := 2
    if cityIndex < pathParts.length ∧ districtIndex < pathParts.length then
      let city := asciiTitle (pathParts.getD cityIndex "")
      let district := asciiTitle (pathParts.getD districtIndex "")
      let offer := if offer.Title = "" then { offer with Title := district } else offer
      { offer with Address := district ++ ", " ++ city }
    else offer
  else offer

/-- extractLinkAndFallbackAddress: when `a.list-item-link` has a href,
resolve it against the base URL (plain concatenation unless it already
starts with "http"), store it as the link, and when no address was
extracted from an image, fall back to the URL path. -/
def extractLinkAndFallbackAddress (c : Container) (offer : RentalOffer)
    (baseURL : String) : RentalOffer :=
  match c.linkHref with
  | some href0 =>
    let href := if hasPrefixS href0 "http" then href0 else baseURL ++ href0
    let offer := { offer with Link := href }
    if offer.Address = "" then extractAddressFromLink offer href else offer
  | none => offer

/-- extractSingleOffer applies the five independent extraction rules to
one container, starting from the zero-valued offer. -/
def extractSingleOffer (c : Container) (baseURL : String) : RentalOffer :=
  let offer : RentalOffer := ⟨"", "", "", "", "", "", ""⟩
  let offer := extractAddressAndTitle c offer
  let offer := extractPrice c offer
  let offer := extractSizeAndRooms c offer
  let offer := extractAvailability c offer
  extractLinkAndFallbackAddress c offer baseURL

/-- extractRentalOffers extracts one offer per container in document
order, appending it only when at least one of size, rooms or price is
non-empty (otherwise the offer is skipped with a warning log). -/
def extractRentalOffers (containers : List Container) (baseURL : String) :
    List RentalOffer :=
  containers.foldl
    (fun offers c =>
      let offer := extractSingleOffer c baseURL
      if offer.Size ≠ "" || offer.Rooms ≠ "" || offer.Price ≠ "" then offers ++ [offer]
      else offers)
    []

/-! ## Helper lemmas -/

theorem lookupA_insertA {κ α : Type} [DecidableEq κ]
    (l : List (κ × α)) (k k' : κ) (v : α) :
    lookupA (insertA l k v) k' = if k' = k then some v else lookupA l k' := by
  induction l with
  | nil =>
    by_cases h : k' = k
    · simp [insertA, lookupA, h]
    · simp [insertA, lookupA, h, Ne.symm h]
  | cons kv rest ih =>
    by_cases hk : kv.1 = k
    · by_cases h : k' = k
      · simp [insertA, lookupA, hk, h]
      · have h2 : ¬ k = k' := fun hh => h hh.symm
        have h3 : ¬ kv.1 = k' := by rw [hk]; exact h2
        simp [insertA, lookupA, hk, h, h2, h3]
    · by_cases h : k' = kv.1
      · have h2 : ¬ k' = k := by
          intro hh
          exact hk (by rw [← h, hh])
        have h3 : kv.1 = k' := h.symm
        simp [insertA, lookupA, hk, h2, h3]
      · have h3 : ¬ kv.1 = k' := fun hh => h hh.symm
        simp [insertA, lookupA, hk, h3, ih]

theorem mem_insertA {κ α : Type} [DecidableEq κ]
    (l : List (κ × α)) (k : κ) (v : α) (kv : κ × α) :
    kv ∈ insertA l k v → kv ∈ l ∨ kv = (k, v) := by
  induction l with
  | nil => simp [insertA]
  | cons hd rest ih =>
    by_cases hk : hd.1 = k
    · intro h
      simp [insertA, hk] at h
      rcases h with h | h
      · exact Or.inr (by simp [h])
      · exact Or.inl (List.mem_cons_of_mem _ h)
    · intro h
      simp [insertA, hk] at h
      rcases h with h | h
      · exact Or.inl (by simp [h])
      · rcases ih h with h' | h'
        · exact Or.inl (List.mem_cons_of_mem _ h')
        · exact Or.inr h'

theorem mem_insertS (l : List String) (s x : String) :
    x ∈ insertS l s → x ∈ l ∨ x = s := by
  unfold insertS
  by_cases h : s ∈ l <;> simp [h]
  tauto

theorem self_mem_insertS (l : List String) (s : String) : s ∈ insertS l s := by
  unfold insertS
  by_cases h : s ∈ l <;> simp [h]

theorem insertA_of_lookup_none {κ α : Type} [DecidableEq κ]
    (l : List (κ × α)) (k : κ) (v : α) :
    lookupA l k = none → insertA l k v = l ++ [(k, v)] := by
  induction l with
  | nil => intro _; rfl
  | cons kv rest ih =>
    intro h
    by_cases hk : kv.1 = k
    · simp [lookupA, hk] at h
    · simp [lookupA, hk] at h
      simp [insertA, hk, ih h]

theorem lookupA_append {κ α : Type} [DecidableEq κ]
    (l1 l2 : List (κ × α)) (k : κ) :
    lookupA (l1 ++ l2) k =
      match lookupA l1 k with
      | some v => some v
      | none => lookupA l2 k := by
  induction l1 with
  | nil => simp [lookupA]
  | cons kv rest ih =>
    by_cases hk : kv.1 = k <;> simp [lookupA, hk, ih]

theorem takeWhile_takeWhile_self (p : Char → Bool) (l : List Char) :
    (l.takeWhile p).takeWhile p = l.takeWhile p := by
  induction l with
  | nil => rfl
  | cons a rest ih =>
    cases h : p a <;> simp [List.takeWhile_cons, h, ih]

/-! ## Claim theorems -/

/-- C2: link canonicalization (cleanURL) strips everything from the
first `?` onward and is idempotent: for every string `u`,
`cleanURL (cleanURL u) = cleanURL u`, and
`cleanURL "https://x/a?b=1" = "https://x/a"`. -/
theorem cleanURL_idempotent :
    (∀ u : String, cleanURL (cleanURL u) = cleanURL u) ∧
    cleanURL "https://x/a?b=1" = "https://x/a" := by
  constructor
  · intro u
    unfold cleanURL
    exact congrArg String.mk (takeWhile_takeWhile_self _ u.data)
  · decide

/-- C10: a listing whose link canonicalizes to the empty string is
skipped entirely by UpdateOffers — removing it from the input changes
neither the resulting state nor the returned new-listings sequence (so
it is never inserted, never returned, and causes no error), on any
state, even when the empty string is not a key yet. -/
theorem updateOffers_skips_emptyCanonical
    (bs : BotState) (pre post : List RentalOffer) (o : RentalOffer)
    (now : Nat) (p : Bool) (h : cleanURL o.Link = "") :
    UpdateOffers bs (pre ++ o :: post) now p = UpdateOffers bs (pre ++ post) now p := by
  have hstep : ∀ acc, updateOffersStep acc o = acc := by
    intro acc
    unfold updateOffersStep
    simp [h]
  unfold UpdateOffers
  simp [List.foldl_append, List.foldl_cons, hstep]

/-- Witness for C10 at a concrete input: the offer whose link is "?x"
is skipped on the empty state. -/
theorem updateOffers_skips_emptyCanonical_witness :
    UpdateOffers ⟨[], [], 0⟩ [⟨"t", "", "", "", "", "", "?x"⟩] 5 true =
      UpdateOffers ⟨[], [], 0⟩ [] 5 true :=
  updateOffers_skips_emptyCanonical ⟨[], [], 0⟩ [] [] ⟨"t", "", "", "", "", "", "?x"⟩ 5 true
    (by decide)

theorem updateFold_snd :
    ∀ (offers : List RentalOffer) (known : List (String × RentalOffer))
      (acc : List RentalOffer),
      (∀ o ∈ offers, cleanURL o.Link ≠ "") →
      (offers.foldl updateOffersStep (known, acc)).2 =
        acc ++ specNewListings known offers := by
  intro offers
  induction offers with
  | nil =>
    intro known acc _
    simp [specNewListings]
  | cons o rest ih =>
    intro known acc h
    have ho : cleanURL o.Link ≠ "" := h o (List.mem_cons_self o rest)
    have hrest : ∀ x ∈ rest, cleanURL x.Link ≠ "" :=
      fun x hx => h x (List.mem_cons_of_mem o hx)
    by_cases hl : (lookupA known (cleanURL o.Link)).isSome
    · have hstep : updateOffersStep (known, acc) o = (known, acc) := by
        unfold updateOffersStep
        simp [ho, hl]
      simp [List.foldl_cons, hstep, specNewListings, hl, ih _ _ hrest]
    · have hstep : updateOffersStep (known, acc) o =
          (insertA known (cleanURL o.Link) { o with Link := cleanURL o.Link },
            acc ++ [{ o with Link := cleanURL o.Link }]) := by
        unfold updateOffersStep
        simp [ho, hl]
      rw [List.foldl_cons, hstep, ih _ _ hrest]
      simp [specNewListings, hl]

theorem updateFold_keys :
    ∀ (offers : List RentalOffer) (known : List (String × RentalOffer))
      (acc : List RentalOffer) (k : String),
      (∀ o ∈ offers, cleanURL o.Link ≠ "") →
      ((lookupA (offers.foldl updateOffersStep (known, acc)).1 k).isSome ↔
        (lookupA known k).isSome ∨
          k ∈ (specNewListings known offers).map (fun o => o.Link)) := by
  intro offers
  induction offers with
  | nil =>
    intro known acc k _
    simp [specNewListings]
  | cons o rest ih =>
    intro known acc k h
    have ho : cleanURL o.Link ≠ "" := h o (List.mem_cons_self o rest)
    have hrest : ∀ x ∈ rest, cleanURL x.Link ≠ "" :=
      fun x hx => h x (List.mem_cons_of_mem o hx)
    by_cases hl : (lookupA known (cleanURL o.Link)).isSome
    · have hstep : updateOffersStep (known, acc) o = (known, acc) := by
        unfold updateOffersStep
        simp [ho, hl]
      simp [List.foldl_cons, hstep, specNewListings, hl, ih _ _ _ hrest]
    · have hstep : updateOffersStep (known, acc) o =
          (insertA known (cleanURL o.Link) { o with Link := cleanURL o.Link },
            acc ++ [{ o with Link := cleanURL o.Link }]) := by
        unfold updateOffersStep
        simp [ho, hl]
      rw [List.foldl_cons, hstep, ih _ _ _ hrest]
      simp only [lookupA_insertA]
      by_cases hkc : k = cleanURL o.Link
      · simp [specNewListings, hl, hkc]
      · simp [specNewListings, hl, hkc]

theorem updateFold_mono :
    ∀ (offers : List RentalOffer) (known : List (String × RentalOffer))
      (acc : List RentalOffer) (k : String),
      (lookupA known k).isSome →
      (lookupA (offers.foldl updateOffersStep (known, acc)).1 k).isSome := by
  intro offers
  induction offers with
  | nil =>
    intro known acc k h
    exact h
  | cons o rest ih =>
    intro known acc k h
    rw [List.foldl_cons]
    by_cases h0 : cleanURL o.Link ≠ ""
    · by_cases hl : (lookupA known (cleanURL o.Link)).isSome
      · have hstep : updateOffersStep (known, acc) o = (known, acc) := by
          unfold updateOffersStep
          simp [h0, hl]
        rw [hstep]
        exact ih _ _ _ h
      · have hstep : updateOffersStep (known, acc) o =
            (insertA known (cleanURL o.Link) { o with Link := cleanURL o.Link },
              acc ++ [{ o with Link := cleanURL o.Link }]) := by
          unfold updateOffersStep
          simp [h0, hl]
        rw [hstep]
        apply ih
        rw [lookupA_insertA]
        by_cases hkc : k = cleanURL o.Link <;> simp [hkc, h]
    · have hstep : updateOffersStep (known, acc) o = (known, acc) := by
        unfold updateOffersStep
        simp [h0]
      rw [hstep]
      exact ih _ _ _ h

theorem updateFold_covers :
    ∀ (offers : List RentalOffer) (known : List (String × RentalOffer))
      (acc : List RentalOffer) (o : RentalOffer),
      o ∈ offers → cleanURL o.Link ≠ "" →
      (lookupA (offers.foldl updateOffersStep (known, acc)).1 (cleanURL o.Link)).isSome := by
  intro offers
  induction offers with
  | nil =>
    intro known acc o h
    cases h
  | cons x rest ih =>
    intro known acc o hmem ho
    rw [List.foldl_cons]
    rcases List.mem_cons.mp hmem with he | hr
    · subst he
      by_cases hl : (lookupA known (cleanURL o.Link)).isSome
      · have hstep : updateOffersStep (known, acc) o = (known, acc) := by
          unfold updateOffersStep
          simp [ho, hl]
        rw [hstep]
        exact updateFold_mono rest known acc _ hl
      · have hstep : updateOffersStep (known, acc) o =
            (insertA known (cleanURL o.Link) { o with Link := cleanURL o.Link },
              acc ++ [{ o with Link := cleanURL o.Link }]) := by
          unfold updateOffersStep
          simp [ho, hl]
        rw [hstep]
        apply updateFold_mono
        rw [lookupA_insertA]
        simp
    · exact ih _ _ o hr ho

theorem updateFold_stable :
    ∀ (offers : List RentalOffer) (known : List (String × RentalOffer))
      (acc : List RentalOffer),
      (∀ o ∈ offers, (lookupA known (cleanURL o.Link)).isSome ∨ cleanURL o.Link = "") →
      offers.foldl updateOffersStep (known, acc) = (known, acc) := by
  intro offers
  induction offers with
  | nil =>
    intro known acc _
    rfl
  | cons o rest ih =>
    intro known acc h
    have ho := h o (List.mem_cons_self o rest)
    have hstep : updateOffersStep (known, acc) o = (known, acc) := by
      unfold updateOffersStep
      rcases ho with ho | ho
      · by_cases h0 : cleanURL o.Link ≠ "" <;> simp [h0, ho]
      · simp [ho]
    rw [List.foldl_cons, hstep]
    exact ih _ _ (fun x hx => h x (List.mem_cons_of_mem o hx))

/-- C1 (amended): for every finite input whose listings all have a
non-empty canonical link, UpdateOffers canonicalizes each listing's
link, inserts a listing iff its canonical link is not already a key
(including keys added earlier in the same call, so two listings sharing
a canonical link yield only the first), returns exactly the
newly-inserted listings in input order (this is the transcription
`specNewListings` of the spec's wording), and a second call with the
identical listing set returns the empty sequence. -/
theorem updateOffers_registerAndDiff
    (bs : BotState) (offers : List RentalOffer) (now now2 : Nat) (p p2 : Bool)
    (h : ∀ o ∈ offers, cleanURL o.Link ≠ "") :
    (UpdateOffers bs offers now p).2 = specNewListings bs.KnownOffers offers ∧
    (∀ k, (lookupA (UpdateOffers bs offers now p).1.KnownOffers k).isSome ↔
      (lookupA bs.KnownOffers k).isSome ∨
        k ∈ (specNewListings bs.KnownOffers offers).map (fun o => o.Link)) ∧
    (UpdateOffers (UpdateOffers bs offers now p).1 offers now2 p2).2 = [] := by
  refine ⟨?_, ?_, ?_⟩
  · show (offers.foldl updateOffersStep (bs.KnownOffers, [])).2 = _
    rw [updateFold_snd offers bs.KnownOffers [] h]
    simp
  · intro k
    exact updateFold_keys offers bs.KnownOffers [] k h
  · show (offers.foldl updateOffersStep
        ((offers.foldl updateOffersStep (bs.KnownOffers, [])).1, [])).2 = []
    have hcov : ∀ o ∈ offers,
        (lookupA (offers.foldl updateOffersStep (bs.KnownOffers, [])).1
          (cleanURL o.Link)).isSome ∨ cleanURL o.Link = "" :=
      fun o ho => Or.inl (updateFold_covers offers bs.KnownOffers [] o ho (h o ho))
    rw [updateFold_stable offers _ [] hcov]

/-- C1 counterexample: on the empty state, the listing whose link is
"?s=a" canonicalizes to "", which is not yet a key, yet UpdateOffers
neither inserts nor returns it — the claim's register-iff-absent rule
(transcribed as specNewListings) predicts it is returned as new. -/
theorem updateOffers_registerAndDiff_cex :
    (UpdateOffers ⟨[], [], 0⟩ [⟨"t", "", "", "", "", "", "?s=a"⟩] 1 true).2 ≠
      specNewListings ([] : List (String × RentalOffer))
        [⟨"t", "", "", "", "", "", "?s=a"⟩] := by
  decide

/-- Witness for C1 on the spec's own scenario: two listings sharing the
canonical link "https://x/1" on the empty state. -/
theorem updateOffers_registerAndDiff_witness :
    (UpdateOffers ⟨[], [], 0⟩
        [⟨"a", "", "", "", "", "", "https://x/1?s=a"⟩,
          ⟨"b", "", "", "", "", "", "https://x/1?s=b"⟩] 1 true).2 =
      specNewListings ([] : List (String × RentalOffer))
        [⟨"a", "", "", "", "", "", "https://x/1?s=a"⟩,
          ⟨"b", "", "", "", "", "", "https://x/1?s=b"⟩] ∧
    (UpdateOffers
        (UpdateOffers ⟨[], [], 0⟩
          [⟨"a", "", "", "", "", "", "https://x/1?s=a"⟩,
            ⟨"b", "", "", "", "", "", "https://x/1?s=b"⟩] 1 true).1
        [⟨"a", "", "", "", "", "", "https://x/1?s=a"⟩,
          ⟨"b", "", "", "", "", "", "https://x/1?s=b"⟩] 2 true).2 = [] :=
  ⟨(updateOffers_registerAndDiff ⟨[], [], 0⟩
      [⟨"a", "", "", "", "", "", "https://x/1?s=a"⟩,
        ⟨"b", "", "", "", "", "", "https://x/1?s=b"⟩] 1 2 true true (by decide)).1,
    (updateOffers_registerAndDiff ⟨[], [], 0⟩
      [⟨"a", "", "", "", "", "", "https://x/1?s=a"⟩,
        ⟨"b", "", "", "", "", "", "https://x/1?s=b"⟩] 1 2 true true (by decide)).2.2⟩

/-- C7 (amended): the mutation is applied to the in-memory state before
persistence is attempted, and the state visible to the caller is the
same whether the snapshot write fails or succeeds; but the write
failure is NOT surfaced by UpdateOffers or MarkOfferAsSeen — their
results carry no error component at all (`bs.saveState()`'s error is
discarded; only CleanupInactiveUsers propagates it). -/
theorem persistFailure_inMemory
    (bs : BotState) (offers : List RentalOffer) (now : Nat) (chatID : Int)
    (link : String) (o : RentalOffer) (u : UserState)
    (ho : o ∈ offers) (hc : cleanURL o.Link ≠ "")
    (hu : lookupA bs.Users chatID = some u) :
    UpdateOffers bs offers now false = UpdateOffers bs offers now true ∧
    MarkOfferAsSeen bs chatID link false = MarkOfferAsSeen bs chatID link true ∧
    (lookupA (UpdateOffers bs offers now false).1.KnownOffers (cleanURL o.Link)).isSome ∧
    cleanURL link ∈ seenOf (MarkOfferAsSeen bs chatID link false) chatID := by
  refine ⟨rfl, rfl, ?_, ?_⟩
  · exact updateFold_covers offers bs.KnownOffers [] o ho hc
  · unfold MarkOfferAsSeen seenOf
    rw [hu]
    simp only [lookupA_insertA, if_pos rfl]
    exact self_mem_insertS _ _

/-- C7 counterexample: at a concrete state and input, a failing
snapshot write produces results identical to a successful one for
UpdateOffers and MarkOfferAsSeen — no explicit error reaches their
caller although the write did fail. -/
theorem persistFailure_not_surfaced_cex :
    UpdateOffers ⟨[], [], 0⟩ [⟨"a", "", "", "", "", "", "https://x/1?s=a"⟩] 1 false =
      UpdateOffers ⟨[], [], 0⟩ [⟨"a", "", "", "", "", "", "https://x/1?s=a"⟩] 1 true ∧
    MarkOfferAsSeen ⟨[(1, ⟨1, "u", "f", "l", 0, [], true⟩)], [], 0⟩ 1 "https://x/1" false =
      MarkOfferAsSeen ⟨[(1, ⟨1, "u", "f", "l", 0, [], true⟩)], [], 0⟩ 1 "https://x/1" true ∧
    saveState
        (UpdateOffers ⟨[], [], 0⟩ [⟨"a", "", "", "", "", "", "https://x/1?s=a"⟩] 1 false).1
        false =
      .error "failed to write bot state file" :=
  ⟨rfl, rfl, rfl⟩

/-- Witness for C7 at a concrete state holding user 1. -/
theorem persistFailure_inMemory_witness :
    UpdateOffers ⟨[(1, ⟨1, "u", "f", "l", 0, [], true⟩)], [], 0⟩
        [⟨"a", "", "", "", "", "", "https://x/1?s=a"⟩] 1 false =
      UpdateOffers ⟨[(1, ⟨1, "u", "f", "l", 0, [], true⟩)], [], 0⟩
        [⟨"a", "", "", "", "", "", "https://x/1?s=a"⟩] 1 true ∧
    MarkOfferAsSeen ⟨[(1, ⟨1, "u", "f", "l", 0, [], true⟩)], [], 0⟩ 1
        "https://x/2?q=1" false =
      MarkOfferAsSeen ⟨[(1, ⟨1, "u", "f", "l", 0, [], true⟩)], [], 0⟩ 1
        "https://x/2?q=1" true ∧
    (lookupA
        (UpdateOffers ⟨[(1, ⟨1, "u", "f", "l", 0, [], true⟩)], [], 0⟩
          [⟨"a", "", "", "", "", "", "https://x/1?s=a"⟩] 1 false).1.KnownOffers
        (cleanURL "https://x/1?s=a")).isSome ∧
    cleanURL "https://x/2?q=1" ∈
      seenOf
        (MarkOfferAsSeen ⟨[(1, ⟨1, "u", "f", "l", 0, [], true⟩)], [], 0⟩ 1
          "https://x/2?q=1" false) 1 :=
  persistFailure_inMemory ⟨[(1, ⟨1, "u", "f", "l", 0, [], true⟩)], [], 0⟩
    [⟨"a", "", "", "", "", "", "https://x/1?s=a"⟩] 1 1 "https://x/2?q=1"
    ⟨"a", "", "", "", "", "", "https://x/1?s=a"⟩ ⟨1, "u", "f", "l", 0, [], true⟩
    (by decide) (by decide) (by decide)

theorem normSeen_fold_sound (known : List (String × RentalOffer)) :
    ∀ (seen : List String) (acc : List String),
      (∀ x ∈ acc, (lookupA known x).isSome) →
      ∀ link ∈ seen.foldl
          (fun acc link =>
            let cleanLink := cleanURL link
            if (lookupA known cleanLink).isSome then insertS acc cleanLink else acc)
          acc,
        (lookupA known link).isSome := by
  intro seen
  induction seen with
  | nil =>
    intro acc hacc link hl
    exact hacc link hl
  | cons l rest ih =>
    intro acc hacc link hl
    rw [List.foldl_cons] at hl
    refine ih _ ?_ link hl
    intro x hx
    by_cases hc : (lookupA known (cleanURL l)).isSome
    · have hx' : x ∈ insertS acc (cleanURL l) := by simpa [hc] using hx
      rcases mem_insertS _ _ _ hx' with h | h
      · exact hacc x h
      · rw [h]
        exact hc
    · have hx' : x ∈ acc := by simpa [hc] using hx
      exact hacc x hx'

theorem normSeen_sound (known : List (String × RentalOffer)) (seen : List String) :
    ∀ link ∈ normSeen known seen, (lookupA known link).isSome := by
  intro link hl
  unfold normSeen at hl
  exact normSeen_fold_sound known seen []
    (fun x hx => absurd hx (List.not_mem_nil x)) link hl

theorem loadUsers_fold_seen (known : List (String × RentalOffer)) :
    ∀ (l : List (Int × Option UserState)) (acc : List (Int × UserState)),
      (∀ ku ∈ acc, ∀ link ∈ ku.2.SeenOffers, (lookupA known link).isSome) →
      ∀ ku ∈ l.foldl
          (fun acc ku =>
            match ku.2 with
            | none => acc
            | some u => insertA acc ku.1 { u with SeenOffers := normSeen known u.SeenOffers })
          acc,
        ∀ link ∈ ku.2.SeenOffers, (lookupA known link).isSome := by
  intro l
  induction l with
  | nil =>
    intro acc hacc ku hku
    exact hacc ku hku
  | cons x rest ih =>
    intro acc hacc ku hku
    rw [List.foldl_cons] at hku
    refine ih _ ?_ ku hku
    intro kv hkv
    cases hx : x.2 with
    | none =>
      have hkv' : kv ∈ acc := by simpa [hx] using hkv
      exact hacc kv hkv'
    | some u =>
      have hkv' : kv ∈ insertA acc x.1 { u with SeenOffers := normSeen known u.SeenOffers } := by
        simpa [hx] using hkv
      rcases mem_insertA _ _ _ _ hkv' with h | h
      · exact hacc kv h
      · intro link hlink
        rw [h] at hlink
        exact normSeen_sound known u.SeenOffers link (by simpa using hlink)

/-- C3 (amended): the seen-links invariant holds in every state
produced by LoadState — every entry of every loaded subscriber's seen
set is a key of the loaded known-listings map, entries pointing to
unknown listings being pruned (concretely: loading a snapshot whose
user 1 has the dangling entry "https://x/gone" yields user 1 with that
entry removed).  The invariant is NOT maintained by every mutating
operation in memory: MarkOfferAsSeen records a link without checking
the known-listings map (see the counterexample), and is repaired only
by the normalization pass of saveState/LoadState. -/
theorem loadState_seenInvariant :
    (∀ (file : Option Snapshot) (now : Nat), SeenInvariant (LoadState file now)) ∧
    lookupA
        (LoadState
          (some ⟨[(1, some ⟨1, "u", "f", "l", 0, ["https://x/gone"], true⟩)],
            [("https://x/kept", ⟨"t", "", "", "", "", "", "https://x/kept"⟩)], 5⟩)
          9).Users 1 =
      some ⟨1, "u", "f", "l", 0, [], true⟩ := by
  constructor
  · intro file now
    match file with
    | none =>
      intro ku hku
      cases hku
    | some st =>
      unfold SeenInvariant LoadState
      intro ku hku link hlink
      exact loadUsers_fold_seen (normOffers st.knownOffers) st.users []
        (fun kv hkv => absurd hkv (List.not_mem_nil kv)) ku hku link hlink
  · decide

/-- C3 counterexample: a reachable in-memory state (load with no state
file, add user 1, mark the unknown link "https://x/unknown" as seen)
violates the seen-links invariant: MarkOfferAsSeen inserts the
canonicalized link into the user's seen set without requiring that it
be a key of the known-listings map. -/
theorem reachable_seenInvariant_cex :
    Reachable
        (MarkOfferAsSeen (AddUser (LoadState none 0) ⟨"u", "f", "l"⟩ 1 true).1 1
          "https://x/unknown" true) ∧
    ¬ SeenInvariant
        (MarkOfferAsSeen (AddUser (LoadState none 0) ⟨"u", "f", "l"⟩ 1 true).1 1
          "https://x/unknown" true) := by
  constructor
  · exact Reachable.markSeen 1 "https://x/unknown" true
      (Reachable.addUser ⟨"u", "f", "l"⟩ 1 true (Reachable.load none 0))
  · unfold SeenInvariant
    decide

theorem normOffers_fold_id :
    ∀ (l : List (String × RentalOffer)) (acc : List (String × RentalOffer)),
      (∀ kv ∈ l, cleanURL kv.1 = kv.1 ∧ kv.1 ≠ "" ∧ kv.2.Link ≠ "") →
      (l.map Prod.fst).Nodup →
      (∀ kv ∈ l, lookupA acc kv.1 = none) →
      l.foldl
        (fun acc kv =>
          let cleanLink := cleanURL kv.1
          if cleanLink ≠ "" && kv.2.Link ≠ "" then insertA acc cleanLink kv.2 else acc)
        acc = acc ++ l := by
  intro l
  induction l with
  | nil =>
    intro acc _ _ _
    simp
  | cons kv rest ih =>
    intro acc hval hnd hlk
    obtain ⟨hc, hne, hlinkne⟩ := hval kv (List.mem_cons_self kv rest)
    rw [List.map_cons, List.nodup_cons] at hnd
    have hstep : (let cleanLink := cleanURL kv.1
        if cleanLink ≠ "" && kv.2.Link ≠ "" then insertA acc cleanLink kv.2 else acc) =
          acc ++ [kv] := by
      show (if cleanURL kv.1 ≠ "" && kv.2.Link ≠ "" then
          insertA acc (cleanURL kv.1) kv.2 else acc) = acc ++ [kv]
      rw [hc]
      rw [if_pos (by simp [hne, hlinkne])]
      rw [insertA_of_lookup_none acc kv.1 kv.2 (hlk kv (List.mem_cons_self kv rest))]
    rw [List.foldl_cons, hstep]
    rw [ih (acc ++ [kv]) (fun x hx => hval x (List.mem_cons_of_mem kv hx)) hnd.2 ?_]
    · simp
    · intro x hx
      rw [lookupA_append]
      rw [hlk x (List.mem_cons_of_mem kv hx)]
      have hxne : kv.1 ≠ x.1 := by
        intro hh
        exact hnd.1 (hh ▸ List.mem_map_of_mem Prod.fst hx)
      simp [lookupA, hxne]

theorem normOffers_id (l : List (String × RentalOffer))
    (hval : ∀ kv ∈ l, cleanURL kv.1 = kv.1 ∧ kv.1 ≠ "" ∧ kv.2.Link ≠ "")
    (hnd : (l.map Prod.fst).Nodup) :
    normOffers l = l := by
  unfold normOffers
  rw [normOffers_fold_id l [] hval hnd (fun kv _ => rfl)]
  simp

theorem normSeen_fold_id (known : List (String × RentalOffer)) :
    ∀ (seen : List String) (acc : List String),
      (∀ x ∈ seen, cleanURL x = x ∧ (lookupA known x).isSome) →
      seen.Nodup →
      (∀ x ∈ seen, x ∉ acc) →
      seen.foldl
        (fun acc link =>
          let cleanLink := cleanURL link
          if (lookupA known cleanLink).isSome then insertS acc cleanLink else acc)
        acc = acc ++ seen := by
  intro seen
  induction seen with
  | nil =>
    intro acc _ _ _
    simp
  | cons l rest ih =>
    intro acc hval hnd hnm
    obtain ⟨hc, hsome⟩ := hval l (List.mem_cons_self l rest)
    rw [List.nodup_cons] at hnd
    have hstep : (let cleanLink := cleanURL l
        if (lookupA known cleanLink).isSome then insertS acc cleanLink else acc) =
          acc ++ [l] := by
      show (if (lookupA known (cleanURL l)).isSome then insertS acc (cleanURL l) else acc) =
        acc ++ [l]
      rw [hc]
      rw [if_pos hsome]
      unfold insertS
      rw [if_neg (hnm l (List.mem_cons_self l rest))]
    rw [List.foldl_cons, hstep]
    rw [ih (acc ++ [l]) (fun x hx => hval x (List.mem_cons_of_mem l hx)) hnd.2 ?_]
    · simp
    · intro x hx
      rw [List.mem_append]
      rintro (hxa | hxl)
      · exact hnm x (List.mem_cons_of_mem l hx) hxa
      · rw [List.mem_singleton] at hxl
        exact hnd.1 (hxl ▸ hx)

theorem normSeen_id (known : List (String × RentalOffer)) (seen : List String)
    (hval : ∀ x ∈ seen, cleanURL x = x ∧ (lookupA known x).isSome)
    (hnd : seen.Nodup) :
    normSeen known seen = seen := by
  unfold normSeen
  rw [normSeen_fold_id known seen [] hval hnd (fun x _ hx => absurd hx (List.not_mem_nil x))]
  simp

theorem usersSave_fold_id (known : List (String × RentalOffer)) :
    ∀ (l : List (Int × UserState)) (acc : List (Int × UserState)),
      (∀ ku ∈ l, normSeen known ku.2.SeenOffers = ku.2.SeenOffers) →
      (l.map Prod.fst).Nodup →
      (∀ ku ∈ l, lookupA acc ku.1 = none) →
      l.foldl
        (fun acc ku =>
          insertA acc ku.1 { ku.2 with SeenOffers := normSeen known ku.2.SeenOffers })
        acc = acc ++ l := by
  intro l
  induction l with
  | nil =>
    intro acc _ _ _
    simp
  | cons ku rest ih =>
    intro acc hseen hnd hlk
    rw [List.map_cons, List.nodup_cons] at hnd
    have hstep :
        insertA acc ku.1 { ku.2 with SeenOffers := normSeen known ku.2.SeenOffers } =
          acc ++ [ku] := by
      rw [hseen ku (List.mem_cons_self ku rest)]
      rw [insertA_of_lookup_none acc ku.1 _ (hlk ku (List.mem_cons_self ku rest))]
    rw [List.foldl_cons, hstep]
    rw [ih (acc ++ [ku]) (fun x hx => hseen x (List.mem_cons_of_mem ku hx)) hnd.2 ?_]
    · simp
    · intro x hx
      rw [lookupA_append]
      rw [hlk x (List.mem_cons_of_mem ku hx)]
      have hxne : ku.1 ≠ x.1 := by
        intro hh
        exact hnd.1 (hh ▸ List.mem_map_of_mem Prod.fst hx)
      simp [lookupA, hxne]

/-- C4: saving a Registry containing only valid entries and loading the
resulting snapshot reproduces the pre-save known-listings map and
subscriber map exactly (hence in particular as sets, after the
normalization that validity renders the identity). -/
theorem saveLoad_roundTrip (bs : BotState) (now : Nat) (h : ValidState bs) :
    (LoadState (some (saveStateSnap bs)) now).KnownOffers = bs.KnownOffers ∧
    (LoadState (some (saveStateSnap bs)) now).Users = bs.Users := by
  unfold ValidState at h
  obtain ⟨hknd, hkval, hund, huval⟩ := h
  have hno : normOffers bs.KnownOffers = bs.KnownOffers := normOffers_id _ hkval hknd
  have hseen : ∀ ku ∈ bs.Users,
      normSeen bs.KnownOffers ku.2.SeenOffers = ku.2.SeenOffers := by
    intro ku hku
    obtain ⟨hnd, hv⟩ := huval ku hku
    exact normSeen_id bs.KnownOffers ku.2.SeenOffers hv hnd
  have husers : bs.Users.foldl
      (fun acc ku =>
        insertA acc ku.1 { ku.2 with SeenOffers := normSeen bs.KnownOffers ku.2.SeenOffers })
      [] = bs.Users := by
    rw [usersSave_fold_id bs.KnownOffers bs.Users [] hseen hund (fun ku _ => rfl)]
    simp
  have hsnap : saveStateSnap bs =
      ⟨bs.Users.map (fun ku => (ku.1, some ku.2)), bs.KnownOffers, bs.LastUpdated⟩ := by
    unfold saveStateSnap
    simp only [hno]
    rw [husers]
  rw [hsnap]
  constructor
  · show normOffers bs.KnownOffers = bs.KnownOffers
    exact hno
  · show ((bs.Users.map (fun ku => (ku.1, some ku.2))).foldl
        (fun acc ku =>
          match ku.2 with
          | none => acc
          | some u =>
            insertA acc ku.1
              { u with SeenOffers := normSeen (normOffers bs.KnownOffers) u.SeenOffers })
        []) = bs.Users
    rw [List.foldl_map]
    show (bs.Users.foldl
        (fun acc ku =>
          insertA acc ku.1
            { ku.2 with SeenOffers := normSeen (normOffers bs.KnownOffers) ku.2.SeenOffers })
        []) = bs.Users
    simp only [hno]
    exact husers

/-- Witness for C4 at a concrete valid registry with one known offer
and one subscriber who has seen it. -/
theorem saveLoad_roundTrip_witness :
    ValidState
        ⟨[(1, ⟨1, "u", "f", "l", 3, ["https://x/1"], true⟩)],
          [("https://x/1", ⟨"t", "a", "500", "30", "1h", "", "https://x/1"⟩)], 7⟩ ∧
    ((LoadState
          (some (saveStateSnap
            ⟨[(1, ⟨1, "u", "f", "l", 3, ["https://x/1"], true⟩)],
              [("https://x/1", ⟨"t", "a", "500", "30", "1h", "", "https://x/1"⟩)], 7⟩))
          42).KnownOffers =
        [("https://x/1", ⟨"t", "a", "500", "30", "1h", "", "https://x/1"⟩)] ∧
      (LoadState
          (some (saveStateSnap
            ⟨[(1, ⟨1, "u", "f", "l", 3, ["https://x/1"], true⟩)],
              [("https://x/1", ⟨"t", "a", "500", "30", "1h", "", "https://x/1"⟩)], 7⟩))
          42).Users =
        [(1, ⟨1, "u", "f", "l", 3, ["https://x/1"], true⟩)]) :=
  ⟨by unfold ValidState; decide,
    saveLoad_roundTrip
      ⟨[(1, ⟨1, "u", "f", "l", 3, ["https://x/1"], true⟩)],
        [("https://x/1", ⟨"t", "a", "500", "30", "1h", "", "https://x/1"⟩)], 7⟩ 42
      (by unfold ValidState; decide)⟩

/-- C5: with maxPages = 2 against the synthetic five-page chain, the
fetcher returns exactly the listings of pages 1 and 2; and in general
one iteration of the pagination loop returns the accumulated listings
immediately (no further request) when there is no rel-next link, when
maxPages > 0 and the next page number exceeds maxPages, or when the
page fetch fails. -/
theorem fetchPagination_maxPages :
    FetchRentalOffers env5 "form" 2 10 = .ok [sampleOffer "o1", sampleOffer "o2"] ∧
    (∀ (env : FetchEnv) (mp : Int) (f : Nat) (p : Int) (acc : List RentalOffer),
      fetchLoop env mp (f + 1) p "" acc = acc) ∧
    (∀ (env : FetchEnv) (mp : Int) (f : Nat) (p : Int) (u : String) (acc : List RentalOffer),
      u ≠ "" → mp > 0 → p > mp → fetchLoop env mp (f + 1) p u acc = acc) ∧
    (∀ (env : FetchEnv) (mp : Int) (f : Nat) (p : Int) (u : String) (acc : List RentalOffer),
      u ≠ "" → ¬(mp > 0 ∧ p > mp) → env u "GET" "" = .error () →
      fetchLoop env mp (f + 1) p u acc = acc) := by
  refine ⟨rfl, ?_, ?_, ?_⟩
  · intro env mp f p acc
    simp [fetchLoop]
  · intro env mp f p u acc hu hmp hp
    unfold fetchLoop
    rw [if_neg hu, if_pos ⟨hmp, hp⟩]
  · intro env mp f p u acc hu hmp herr
    unfold fetchLoop
    rw [if_neg hu, if_neg hmp, herr]

/-- Witness for C5: the limit rule stops page 3 when maxPages = 2, and
the failure rule stops on a failing page, both at concrete inputs. -/
theorem fetchPagination_maxPages_witness :
    fetchLoop env5 2 3 3 "https://www.vuokraovi.com/p3" [] = [] ∧
    fetchLoop envFail 0 3 3 "https://www.vuokraovi.com/p3" [] = [] :=
  ⟨fetchPagination_maxPages.2.2.1 env5 2 2 3 "https://www.vuokraovi.com/p3" []
      (by decide) (by decide) (by decide),
    fetchPagination_maxPages.2.2.2 envFail 0 2 3 "https://www.vuokraovi.com/p3" []
      (by decide) (by decide) rfl⟩

/-- C6: whenever the initial page fetch succeeds, FetchRentalOffers
returns ok — the result is the pagination loop's accumulation and a
failed later page cannot produce an error; one loop iteration on a
failing page returns exactly the offers accumulated so far; and on the
concrete chain whose third page fails, the result is ok with the
listings of pages 1 and 2. -/
theorem fetchPartialFailure :
    (∀ (env : FetchEnv) (form : String) (mp : Int) (f : Nat) (o1 : List RentalOffer)
      (next : String), env initialURL "POST" form = .ok (o1, next) →
      FetchRentalOffers env form mp f = .ok (fetchLoop env mp f 2 next o1)) ∧
    (∀ (env : FetchEnv) (mp : Int) (f : Nat) (p : Int) (u : String)
      (acc : List RentalOffer),
      u ≠ "" → ¬(mp > 0 ∧ p > mp) → env u "GET" "" = .error () →
      fetchLoop env mp (f + 1) p u acc = acc) ∧
    FetchRentalOffers envFail "form" 0 10 = .ok [sampleOffer "o1", sampleOffer "o2"] := by
  refine ⟨?_, ?_, rfl⟩
  · intro env form mp f o1 next h
    unfold FetchRentalOffers
    rw [h]
  · intro env mp f p u acc hu hmp herr
    unfold fetchLoop
    rw [if_neg hu, if_neg hmp, herr]

/-- Witness for C6 on the failing chain at concrete inputs. -/
theorem fetchPartialFailure_witness :
    FetchRentalOffers envFail "fd" 0 10 =
      .ok (fetchLoop envFail 0 10 2 "https://www.vuokraovi.com/p2" [sampleOffer "o1"]) ∧
    fetchLoop envFail 0 4 4 "https://www.vuokraovi.com/p9" [sampleOffer "o1"] =
      [sampleOffer "o1"] :=
  ⟨fetchPartialFailure.1 envFail "fd" 0 10 [sampleOffer "o1"]
      "https://www.vuokraovi.com/p2" rfl,
    fetchPartialFailure.2.1 envFail 0 3 4 "https://www.vuokraovi.com/p9"
      [sampleOffer "o1"] (by decide) (by decide) rfl⟩

theorem extractFold_filter (baseURL : String) :
    ∀ (containers : List Container) (acc : List RentalOffer),
      containers.foldl
        (fun offers c =>
          let offer := extractSingleOffer c baseURL
          if offer.Size ≠ "" || offer.Rooms ≠ "" || offer.Price ≠ "" then offers ++ [offer]
          else offers)
        acc =
      acc ++ (containers.map (fun c => extractSingleOffer c baseURL)).filter
        (fun o => o.Size ≠ "" || o.Rooms ≠ "" || o.Price ≠ "") := by
  intro containers
  induction containers with
  | nil =>
    intro acc
    simp
  | cons c rest ih =>
    intro acc
    by_cases h : ((extractSingleOffer c baseURL).Size ≠ "" ||
        (extractSingleOffer c baseURL).Rooms ≠ "" ||
        (extractSingleOffer c baseURL).Price ≠ "" : Bool) = true
    · simp only [List.foldl_cons, List.map_cons, List.filter_cons, h, if_true]
      rw [ih]
      simp
    · simp only [List.foldl_cons, List.map_cons, List.filter_cons, h, if_false]
      exact ih acc

/-- C8 counterexample: a container whose price, rooms and size all
extract as empty contributes nothing to the Extractor's output — the
one-container document yields the empty sequence, not a sequence of
one listing. -/
theorem extractor_appends_cex :
    extractRentalOffers [⟨[], none, none, [], some "/vuokra-asunto/a/b/c/1"⟩]
        "https://www.vuokraovi.com" = [] ∧
    ([⟨[], none, none, [], some "/vuokra-asunto/a/b/c/1"⟩] : List Container).length = 1 := by
  constructor
  · rfl
  · rfl

/-- C8 (amended): the usability filter runs inside the Extractor
itself: extractRentalOffers is exactly map-extract-then-filter on
"size, rooms or price non-empty", so a container whose price, rooms
and size all extract empty is dropped by the Extractor (not at the
Reconciler/Store boundary), while a container with only a price set is
still included. -/
theorem extractor_filters (baseURL : String) (containers : List Container) :
    extractRentalOffers containers baseURL =
      (containers.map (fun c => extractSingleOffer c baseURL)).filter
        (fun o => o.Size ≠ "" || o.Rooms ≠ "" || o.Price ≠ "") ∧
    extractRentalOffers
        [⟨[], some "500 €/kk", none, [], some "/vuokra-asunto/a/b/c/1"⟩]
        "https://www.vuokraovi.com" =
      [extractSingleOffer ⟨[], some "500 €/kk", none, [], some "/vuokra-asunto/a/b/c/1"⟩
        "https://www.vuokraovi.com"] := by
  constructor
  · unfold extractRentalOffers
    rw [extractFold_filter baseURL containers []]
    simp
  · rfl

/-- C9 counterexample: for the detail-page URL whose path is
/vuokra-asunto/helsinki/kallio/kerrostalo/123, the fallback address is
"Kallio, Helsinki" — the THIRD path segment (district, per the code's
own naming) comes first — not "Helsinki, Kallio" as predicted by
reading the second segment as district and the third as city. -/
theorem extractAddressFromLink_cex :
    (extractAddressFromLink ⟨"", "", "", "", "", "", ""⟩
        "https://www.vuokraovi.com/vuokra-asunto/helsinki/kallio/kerrostalo/123?x=1").Address =
      "Kallio, Helsinki" ∧
    (extractAddressFromLink ⟨"", "", "", "", "", "", ""⟩
        "https://www.vuokraovi.com/vuokra-asunto/helsinki/kallio/kerrostalo/123?x=1").Address ≠
      asciiTitle "helsinki" ++ ", " ++ asciiTitle "kallio" := by
  constructor
  · rfl
  · decide

/-- C9 (amended): when the URL path has at least four segments, the
fallback treats the SECOND path segment as the city and the THIRD as
the district (both ASCII title-cased), sets the address to
"district, city" (third segment first), sets the title to the district
only when no title was already set, leaves the other fields unchanged,
and is invoked by extractLinkAndFallbackAddress only when no address
was extracted from an image. -/
theorem extractAddressFromLink_fallback (offer : RentalOffer) (href : String)
    (h : (splitOnChar '/' (trimSlashes (urlPath href))).length ≥ 4) :
    (extractAddressFromLink offer href).Address =
      asciiTitle ((splitOnChar '/' (trimSlashes (urlPath href))).getD 2 "") ++ ", " ++
        asciiTitle ((splitOnChar '/' (trimSlashes (urlPath href))).getD 1 "") ∧
    (extractAddressFromLink offer href).Title =
      (if offer.Title = "" then
        asciiTitle ((splitOnChar '/' (trimSlashes (urlPath href))).getD 2 "")
      else offer.Title) ∧
    (extractAddressFromLink offer href).Link = offer.Link ∧
    (extractAddressFromLink offer href).Price = offer.Price ∧
    (∀ (c : Container) (o : RentalOffer) (b : String), o.Address ≠ "" →
      (extractLinkAndFallbackAddress c o b).Address = o.Address) := by
  have hidx : (1 : Nat) < (splitOnChar '/' (trimSlashes (urlPath href))).length ∧
      (2 : Nat) < (splitOnChar '/' (trimSlashes (urlPath href))).length := by
    omega
  refine ⟨?_, ?_, ?_, ?_, ?_⟩
  · unfold extractAddressFromLink
    rw [if_pos h, if_pos hidx]
  · unfold extractAddressFromLink
    rw [if_pos h, if_pos hidx]
    by_cases ht : offer.Title = "" <;> simp [ht]
  · unfold extractAddressFromLink
    rw [if_pos h, if_pos hidx]
    by_cases ht : offer.Title = "" <;> simp [ht]
  · unfold extractAddressFromLink
    rw [if_pos h, if_pos hidx]
    by_cases ht : offer.Title = "" <;> simp [ht]
  · intro c o b hne
    unfold extractLinkAndFallbackAddress
    cases hl : c.linkHref with
    | none => rfl
    | some href0 => simp [hne]

/-- Witness for C9 at the concrete five-segment path. -/
theorem extractAddressFromLink_fallback_witness :
    (splitOnChar '/' (trimSlashes (urlPath
        "https://www.vuokraovi.com/vuokra-asunto/helsinki/kallio/kerrostalo/123"))).length ≥ 4 ∧
    (extractAddressFromLink ⟨"", "", "", "", "", "", ""⟩
        "https://www.vuokraovi.com/vuokra-asunto/helsinki/kallio/kerrostalo/123").Address =
      asciiTitle ((splitOnChar '/' (trimSlashes (urlPath
          "https://www.vuokraovi.com/vuokra-asunto/helsinki/kallio/kerrostalo/123"))).getD 2 "")
        ++ ", " ++
        asciiTitle ((splitOnChar '/' (trimSlashes (urlPath
          "https://www.vuokraovi.com/vuokra-asunto/helsinki/kallio/kerrostalo/123"))).getD 1 "") :=
  ⟨by decide,
    (extractAddressFromLink_fallback ⟨"", "", "", "", "", "", ""⟩
      "https://www.vuokraovi.com/vuokra-asunto/helsinki/kallio/kerrostalo/123"
      (by decide)).1⟩
